import Mathlib

/-
Verification of the room-activities core (connection registry, snake tick
simulation, YouTube playback synchronization) as implemented by the Python
sources in SIMPLE_ACTIVITIES_ARCHITECTURE.md, with the reporting/connection
handlers that exist only as callers in the frontend modelled from the spec.

Python dictionaries (insertion ordered) are embedded as association lists,
wall-clock times and playback positions as rationals, and the random number
generator as an explicit stream of draws.
-/

namespace Room

/-- Lookup in an insertion-ordered association list (Python `d.get(k)` / `d[k]`). -/
def lookupAssoc {κ α : Type} [DecidableEq κ] : List (κ × α) → κ → Option α
  | [], _ => none
  | (k, v) :: rest, key => if k = key then some v else lookupAssoc rest key

/-- Replace the value stored at an existing key (Python `d[k] = v` when `k in d`). -/
def updateAssoc {κ α : Type} [DecidableEq κ] : List (κ × α) → κ → α → List (κ × α)
  | [], _, _ => []
  | (k0, v0) :: rest, key, v =>
      if k0 = key then (key, v) :: updateAssoc rest key v
      else (k0, v0) :: updateAssoc rest key v

/-- Python `d[k] = v`: update in place when the key exists, append otherwise. -/
def setAssoc {κ α : Type} [DecidableEq κ] (l : List (κ × α)) (key : κ) (v : α) :
    List (κ × α) :=
  if (lookupAssoc l key).isSome then updateAssoc l key v else l ++ [(key, v)]

/-- Python `del d[k]`. -/
def eraseKey {κ α : Type} [DecidableEq κ] : List (κ × α) → κ → List (κ × α)
  | [], _ => []
  | (k0, v0) :: rest, key =>
      if k0 = key then eraseKey rest key else (k0, v0) :: eraseKey rest key

theorem lookupAssoc_updateAssoc_ne {κ α : Type} [DecidableEq κ]
    (l : List (κ × α)) (key k : κ) (v : α) (h : key ≠ k) :
    lookupAssoc (updateAssoc l key v) k = lookupAssoc l k := by
  induction l with
  | nil => rfl
  | cons p rest ih =>
      obtain ⟨k0, v0⟩ := p
      by_cases h0 : k0 = key
      · subst h0
        simp [updateAssoc, lookupAssoc, h, ih]
      · simp only [updateAssoc, if_neg h0]
        by_cases h1 : k0 = k
        · subst h1
          simp [lookupAssoc]
        · simp only [lookupAssoc, if_neg h1]
          exact ih

theorem lookupAssoc_append_left {κ α : Type} [DecidableEq κ]
    (l l2 : List (κ × α)) (k : κ) (h : (lookupAssoc l k).isSome) :
    lookupAssoc (l ++ l2) k = lookupAssoc l k := by
  induction l with
  | nil => simp [lookupAssoc] at h
  | cons p rest ih =>
      obtain ⟨k0, v0⟩ := p
      by_cases h1 : k0 = k
      · simp [lookupAssoc, h1]
      · simp only [lookupAssoc, if_neg h1] at h ⊢
        exact ih h

/-! ## YouTube playback synchronization (`YouTubeSyncActivity`)

State fields follow the `self.state` dictionary of `YouTubeSyncActivity`:
`video_id`, `current_time` (the frozen baseline position), `is_playing`,
`playback_rate`, `last_action_time` (the baseline wall-clock time) and
`master_user`. -/

structure YTState where
  video_id : Option String
  current_time : ℚ
  is_playing : Bool
  playback_rate : ℚ
  last_action_time : ℚ
  master_user : Option String
deriving DecidableEq

namespace YTState

/-- Initial state built by `YouTubeSyncActivity.__init__` at wall-clock time `t0`. -/
def init (t0 : ℚ) : YTState :=
  { video_id := none
    current_time := 0
    is_playing := false
    playback_rate := 1
    last_action_time := t0
    master_user := none }

end YTState

/-- The playback actions handled by `YouTubeSyncActivity.user_action`.  The
`load_video` message sent by the frontend carries a `start_time` field as well
as the video id; the backend handler reads only `action['video_id']`. -/
inductive YTAction where
  | load_video (video_id : String) (start_time : ℚ)
  | play
  | pause
  | seek (time : ℚ)
  | set_rate (rate : ℚ)
deriving DecidableEq

/-- The master gate at the top of `user_action`: the action is ignored unless
`master_user` is unset or equals the acting user. -/
def permitted (s : YTState) (user : String) : Bool :=
  match s.master_user with
  | none => true
  | some m => m == user

/-- The per-action state transition of `YouTubeSyncActivity.user_action`,
after the master gate, evaluated at wall-clock time `now`. -/
def applyYTAction (s : YTState) (a : YTAction) (now : ℚ) : YTState :=
  match a with
  | .load_video vid _start =>
      { s with video_id := some vid, current_time := 0, is_playing := false }
  | .play =>
      { s with is_playing := true, last_action_time := now }
  | .pause =>
      let ct := if s.is_playing then
          s.current_time + (now - s.last_action_time) * s.playback_rate
        else s.current_time
      { s with current_time := ct, is_playing := false, last_action_time := now }
  | .seek t =>
      { s with current_time := t, last_action_time := now }
  | .set_rate r =>
      let ct := if s.is_playing then
          s.current_time + (now - s.last_action_time) * s.playback_rate
        else s.current_time
      { s with current_time := ct, playback_rate := r, last_action_time := now }

/-- `YouTubeSyncActivity.user_action`: drop the action when the master gate
fails, otherwise apply the transition. -/
def yt_user_action (s : YTState) (user : String) (a : YTAction) (now : ℚ) : YTState :=
  if permitted s user then applyYTAction s a now else s

/-- The effective playback position computed on demand (the body of
`get_state_for_user`): advance from the baseline while playing, otherwise the
frozen baseline itself. -/
def effectivePosition (s : YTState) (now : ℚ) : ℚ :=
  if s.is_playing then
    s.current_time + (now - s.last_action_time) * s.playback_rate
  else s.current_time

/-- The per-viewer snapshot returned by `YouTubeSyncActivity.get_state_for_user`. -/
structure YTSnapshot where
  video_id : Option String
  current_time : ℚ
  is_playing : Bool
  playback_rate : ℚ
  master_user : Option String
  is_master : Bool
deriving DecidableEq

/-- `YouTubeSyncActivity.get_state_for_user` at query time `now`. -/
def get_state_for_user (s : YTState) (user : String) (now : ℚ) : YTSnapshot :=
  { video_id := s.video_id
    current_time := effectivePosition s now
    is_playing := s.is_playing
    playback_rate := s.playback_rate
    master_user := s.master_user
    is_master := s.master_user == some user }

theorem permitted_applyYTAction (s : YTState) (a : YTAction) (now : ℚ) (u : String) :
    permitted (applyYTAction s a now) u = permitted s u := by
  cases a <;> cases h : s.master_user <;> simp [applyYTAction, permitted, h]

/-- Modelled from the spec: the backend handler for `state_report` messages is
not among the repository sources (only the frontend caller that sends
`activity:youtube:state_report` with a `client_timestamp` exists, in the
`onStateReport` callback), so the server-side SyncTimeline state is taken from
the spec data model: the playback timeline together with the monotonically
increasing mutation sequence number and the timestamp of the last accepted
mutation. -/
structure SyncTimelineState where
  timeline : YTState
  mutation_seq : ℕ
  mutation_time : ℚ
deriving DecidableEq

/-- An observed playback state reported by a client, tagged with the client
timestamp, exactly the payload assembled by the frontend `onStateReport`
callback. -/
structure StateReport where
  current_time : ℚ
  is_playing : Bool
  playback_rate : ℚ
  client_timestamp : ℚ
deriving DecidableEq

/-- Modelled from the spec: the server-side `state_report` handler is missing
from the sources, so it is taken from the spec words: the report is accepted
as the authoritative playback state only if its timestamp is strictly newer
than the timestamp of the last accepted server-side mutation; a report failing
the check is discarded silently and triggers no broadcast, while an accepted
one increments the mutation sequence number and is broadcast.  The returned
Bool records whether a broadcast is triggered. -/
def onStateReport (st : SyncTimelineState) (r : StateReport) : SyncTimelineState × Bool :=
  if st.mutation_time < r.client_timestamp then
    ({ timeline := { st.timeline with
         current_time := r.current_time
         is_playing := r.is_playing
         playback_rate := r.playback_rate
         last_action_time := r.client_timestamp }
       mutation_seq := st.mutation_seq + 1
       mutation_time := r.client_timestamp }, true)
  else (st, false)

/-! ## Theorems about the playback timeline -/

/-- C1: an incoming state_report carrying a client timestamp is accepted as
the authoritative playback state if and only if its timestamp is strictly
newer than the timestamp of the last accepted server-side mutation; a report
failing this check leaves the SyncTimeline state unchanged and triggers no
broadcast. -/
theorem state_report_stale_rejection (st : SyncTimelineState) (r : StateReport) :
    ((onStateReport st r).2 = true ↔ st.mutation_time < r.client_timestamp)
    ∧ (¬ st.mutation_time < r.client_timestamp →
        (onStateReport st r).1 = st ∧ (onStateReport st r).2 = false)
    ∧ (st.mutation_time < r.client_timestamp →
        (onStateReport st r).1.timeline.current_time = r.current_time
        ∧ (onStateReport st r).1.timeline.is_playing = r.is_playing
        ∧ (onStateReport st r).1.timeline.playback_rate = r.playback_rate
        ∧ (onStateReport st r).1.mutation_time = r.client_timestamp
        ∧ (onStateReport st r).1.mutation_seq = st.mutation_seq + 1
        ∧ (onStateReport st r).2 = true) := by
  by_cases h : st.mutation_time < r.client_timestamp <;> simp [onStateReport, h]

/-- Witness for C1 at a concrete stale report (mutation at time 10, report
stamped 5). -/
theorem state_report_stale_rejection_witness :
    ((onStateReport ⟨YTState.init 0, 3, 10⟩ ⟨42, true, 1, 5⟩).2 = true
        ↔ (10 : ℚ) < 5)
    ∧ (¬ (10 : ℚ) < 5 →
        (onStateReport ⟨YTState.init 0, 3, 10⟩ ⟨42, true, 1, 5⟩).1 = ⟨YTState.init 0, 3, 10⟩
        ∧ (onStateReport ⟨YTState.init 0, 3, 10⟩ ⟨42, true, 1, 5⟩).2 = false)
    ∧ ((10 : ℚ) < 5 →
        (onStateReport ⟨YTState.init 0, 3, 10⟩ ⟨42, true, 1, 5⟩).1.timeline.current_time = 42
        ∧ (onStateReport ⟨YTState.init 0, 3, 10⟩ ⟨42, true, 1, 5⟩).1.timeline.is_playing = true
        ∧ (onStateReport ⟨YTState.init 0, 3, 10⟩ ⟨42, true, 1, 5⟩).1.timeline.playback_rate = 1
        ∧ (onStateReport ⟨YTState.init 0, 3, 10⟩ ⟨42, true, 1, 5⟩).1.mutation_time = 5
        ∧ (onStateReport ⟨YTState.init 0, 3, 10⟩ ⟨42, true, 1, 5⟩).1.mutation_seq = 3 + 1
        ∧ (onStateReport ⟨YTState.init 0, 3, 10⟩ ⟨42, true, 1, 5⟩).2 = true) :=
  state_report_stale_rejection ⟨YTState.init 0, 3, 10⟩ ⟨42, true, 1, 5⟩

/-- C3: for every SyncTimeline state and query time, the effective position
returned to a viewer is baseline_position + rate*(now - baseline_time) while
playing and the frozen baseline_position otherwise; in particular, after
play() at time t0 with rate 1, a query at t0+5 returns baseline_position
+ 5. -/
theorem effective_position_model (s : YTState) (u v : String) (now t0 : ℚ) :
    ((get_state_for_user s v now).current_time
        = if s.is_playing then
            s.current_time + s.playback_rate * (now - s.last_action_time)
          else s.current_time)
    ∧ (permitted s u = true → s.playback_rate = 1 →
        (get_state_for_user (yt_user_action s u .play t0) v (t0 + 5)).current_time
          = (yt_user_action s u .play t0).current_time + 5) := by
  constructor
  · unfold get_state_for_user effectivePosition
    cases h : s.is_playing
    · simp [h]
    · simp [h]
      ring
  · intro hp hr
    simp [yt_user_action, hp, applyYTAction, get_state_for_user, effectivePosition, hr]

/-- Witness for C3: fresh timeline queried at 3, then play at t0 = 2 and a
query at 7, with the scenario hypotheses discharged. -/
theorem effective_position_model_witness :
    ((get_state_for_user (YTState.init 0) "bob" 3).current_time
        = if (YTState.init 0).is_playing then
            (YTState.init 0).current_time
              + (YTState.init 0).playback_rate * (3 - (YTState.init 0).last_action_time)
          else (YTState.init 0).current_time)
    ∧ (get_state_for_user (yt_user_action (YTState.init 0) "alice" .play 2) "bob"
          (2 + 5)).current_time
        = (yt_user_action (YTState.init 0) "alice" .play 2).current_time + 5 :=
  ⟨(effective_position_model (YTState.init 0) "alice" "bob" 3 2).1,
   (effective_position_model (YTState.init 0) "alice" "bob" 3 2).2 (by decide) (by decide)⟩

/-- C4 counterexample: from a state that is already playing (baseline position
0 fixed at time 0, rate 1), a play() action applied at time 5 moves the
effective position from 5 back to 0, so not every non-seek mutating action
preserves the effective position at the moment it is applied. -/
theorem play_does_not_freeze :
    effectivePosition
        (yt_user_action
          { video_id := none, current_time := 0, is_playing := true,
            playback_rate := 1, last_action_time := 0, master_user := none }
          "alice" .play 5) 5
      ≠ effectivePosition
          { video_id := none, current_time := 0, is_playing := true,
            playback_rate := 1, last_action_time := 0, master_user := none } 5 := by
  norm_num [yt_user_action, permitted, applyYTAction, effectivePosition]

/-- C4 (amended): pause() and set_rate() freeze the current effective position
into the baseline before changing anything else and so preserve it; play()
does not freeze, hence preserves the effective position only when playback is
paused; in particular pause() immediately followed by play() with no
intervening seek leaves the effective position continuous across the
boundary. -/
theorem mutators_preserve_effective_position (s : YTState) (u : String) (now t2 r : ℚ)
    (hp : permitted s u = true) :
    effectivePosition (yt_user_action s u .pause now) now = effectivePosition s now
    ∧ effectivePosition (yt_user_action s u (.set_rate r) now) now = effectivePosition s now
    ∧ (s.is_playing = false →
        effectivePosition (yt_user_action s u .play now) now = effectivePosition s now)
    ∧ effectivePosition (yt_user_action (yt_user_action s u .pause now) u .play t2) t2
        = effectivePosition s now := by
  have hp2 : permitted (yt_user_action s u .pause now) u = true := by
    rw [yt_user_action, if_pos hp, permitted_applyYTAction]
    exact hp
  refine ⟨?_, ?_, ?_, ?_⟩
  · unfold yt_user_action
    rw [if_pos hp]
    unfold applyYTAction effectivePosition
    cases h : s.is_playing <;> simp [h]
  · unfold yt_user_action
    rw [if_pos hp]
    unfold applyYTAction effectivePosition
    cases h : s.is_playing
    · simp [h]
    · simp [h]
  · intro h
    unfold yt_user_action
    rw [if_pos hp]
    unfold applyYTAction effectivePosition
    simp [h]
  · rw [yt_user_action, if_pos hp2]
    conv_lhs => rw [yt_user_action, if_pos hp]
    unfold applyYTAction effectivePosition
    cases h : s.is_playing
    · simp [h]
    · simp [h]

/-- Witness for C4 (amended): fresh timeline, actions at time 1, replay at 2,
rate 2. -/
theorem mutators_preserve_effective_position_witness :
    permitted (YTState.init 0) "alice" = true
    ∧ (effectivePosition (yt_user_action (YTState.init 0) "alice" .pause 1) 1
          = effectivePosition (YTState.init 0) 1
      ∧ effectivePosition (yt_user_action (YTState.init 0) "alice" (.set_rate 2) 1) 1
          = effectivePosition (YTState.init 0) 1
      ∧ ((YTState.init 0).is_playing = false →
          effectivePosition (yt_user_action (YTState.init 0) "alice" .play 1) 1
            = effectivePosition (YTState.init 0) 1)
      ∧ effectivePosition
            (yt_user_action (yt_user_action (YTState.init 0) "alice" .pause 1) "alice" .play 2) 2
          = effectivePosition (YTState.init 0) 1) :=
  ⟨by decide, mutators_preserve_effective_position (YTState.init 0) "alice" 1 2 2 (by decide)⟩

/-- C8 counterexample: a paused timeline at position 7; load_video with a
requested start of 30, applied at time 2, leaves the effective position at 0,
not at the requested start. -/
theorem load_ignores_start :
    effectivePosition
        (yt_user_action
          { video_id := none, current_time := 7, is_playing := false,
            playback_rate := 1, last_action_time := 0, master_user := none }
          "alice" (.load_video "abc" 30) 2) 2
      ≠ 30 := by
  norm_num [yt_user_action, permitted, applyYTAction, effectivePosition]

/-- C8 (amended): load_video stops playback and resets the baseline position
to 0 regardless of the requested start time, leaving the baseline wall-clock
time unchanged; immediately after the action the effective position is 0 and
the playing flag is false. -/
theorem load_video_resets (s : YTState) (u vid : String) (start now : ℚ)
    (hp : permitted s u = true) :
    (yt_user_action s u (.load_video vid start) now).current_time = 0
    ∧ (yt_user_action s u (.load_video vid start) now).is_playing = false
    ∧ (yt_user_action s u (.load_video vid start) now).video_id = some vid
    ∧ (yt_user_action s u (.load_video vid start) now).last_action_time = s.last_action_time
    ∧ effectivePosition (yt_user_action s u (.load_video vid start) now) now = 0 := by
  rw [yt_user_action, if_pos hp]
  unfold applyYTAction effectivePosition
  simp

/-- Witness for C8 (amended) at the concrete input of the counterexample. -/
theorem load_video_resets_witness :
    permitted (YTState.init 0) "alice" = true
    ∧ ((yt_user_action (YTState.init 0) "alice" (.load_video "abc" 30) 2).current_time = 0
      ∧ (yt_user_action (YTState.init 0) "alice" (.load_video "abc" 30) 2).is_playing = false
      ∧ (yt_user_action (YTState.init 0) "alice" (.load_video "abc" 30) 2).video_id = some "abc"
      ∧ (yt_user_action (YTState.init 0) "alice" (.load_video "abc" 30) 2).last_action_time
          = (YTState.init 0).last_action_time
      ∧ effectivePosition (yt_user_action (YTState.init 0) "alice" (.load_video "abc" 30) 2) 2 = 0) :=
  ⟨by decide, load_video_resets (YTState.init 0) "alice" "abc" 30 2 (by decide)⟩

/-! ## Snake game (`SnakeGameActivity`)

The state dictionary holds `status`, `snakes` (user id to snake data),
`food` and `scores`; the grid dimensions come from the activity config.
`random.randint` draws are made explicit as a stream `rng : ℕ → Pos` together
with the index of the next draw, and the unbounded retry loop of
`_spawn_food` carries an explicit fuel bound on how far it is unrolled. -/

structure Pos where
  x : Int
  y : Int
deriving DecidableEq

inductive Direction where
  | up
  | down
  | left
  | right
deriving DecidableEq

/-- The `(dx, dy)` value of each `Direction` enum member. -/
def Direction.vec : Direction → Int × Int
  | .up => (0, -1)
  | .down => (0, 1)
  | .left => (-1, 0)
  | .right => (1, 0)

structure Snake where
  positions : List Pos
  direction : Direction
  alive : Bool
deriving DecidableEq

structure GameState where
  grid_width : Int
  grid_height : Int
  status : String
  snakes : List (String × Snake)
  food : List Pos
  scores : List (String × Nat)
deriving DecidableEq

/-- Python `scores[user_id] += 1`. -/
def bumpScore : List (String × Nat) → String → List (String × Nat)
  | [], _ => []
  | (k, n) :: rest, uid =>
      if k = uid then (k, n + 1) :: bumpScore rest uid
      else (k, n) :: bumpScore rest uid

/-- `SnakeGameActivity._spawn_food`, with the `while True` retry loop made
explicit: `rng i` is the i-th random draw and `fuel` bounds how many draws are
unrolled (the real loop is the limit of unbounded fuel).  `none` means the
loop has not exited within `fuel` draws; a found cell is returned together
with the index of the next unused draw. -/
def spawnFood (snakes : List (String × Snake)) (food : List Pos) (rng : ℕ → Pos) :
    ℕ → ℕ → Option (Pos × ℕ)
  | 0, _ => none
  | fuel + 1, i =>
      if (∃ q ∈ snakes, rng i ∈ q.2.positions) ∨ rng i ∈ food then
        spawnFood snakes food rng fuel (i + 1)
      else some (rng i, i + 1)

/-- The body of the `for user_id, snake in self.state['snakes'].items()` loop
of `_update_game_state` for one user.  The collision checks read `st.snakes`
as already updated by the snakes processed earlier in the same tick, exactly
as the Python loop mutates the dictionary it iterates over. -/
def stepSnake (rng : ℕ → Pos) (fuel : ℕ) (acc : GameState × ℕ) (uid : String) :
    GameState × ℕ :=
  let st := acc.1
  let idx := acc.2
  match lookupAssoc st.snakes uid with
  | none => (st, idx)
  | some sk =>
    if sk.alive = false then (st, idx)
    else
      match sk.positions with
      | [] => (st, idx)
      | head :: _ =>
        let nh : Pos := ⟨head.x + sk.direction.vec.1, head.y + sk.direction.vec.2⟩
        if nh.x < 0 ∨ nh.x ≥ st.grid_width ∨ nh.y < 0 ∨ nh.y ≥ st.grid_height then
          ({ st with snakes := updateAssoc st.snakes uid { sk with alive := false } }, idx)
        else if nh ∈ sk.positions then
          ({ st with snakes := updateAssoc st.snakes uid { sk with alive := false } }, idx)
        else if ∃ q ∈ st.snakes, q.1 ≠ uid ∧ nh ∈ q.2.positions then
          ({ st with snakes := updateAssoc st.snakes uid { sk with alive := false } }, idx)
        else
          let grown := { sk with positions := nh :: sk.positions }
          if nh ∈ st.food then
            let st1 := { st with
              snakes := updateAssoc st.snakes uid grown
              food := st.food.erase nh
              scores := bumpScore st.scores uid }
            match spawnFood st1.snakes st1.food rng fuel idx with
            | some (p, idx2) => ({ st1 with food := st1.food ++ [p] }, idx2)
            | none => (st1, idx + fuel)
          else
            let shrunk := { grown with positions := grown.positions.dropLast }
            ({ st with snakes := updateAssoc st.snakes uid shrunk }, idx)

/-- `SnakeGameActivity._update_game_state`: advance every snake in dictionary
order, then move to `finished` when at most one snake is left alive and more
than one player is in the game. -/
def updateGameState (st : GameState) (rng : ℕ → Pos) (fuel : ℕ) : GameState :=
  let keys := st.snakes.map Prod.fst
  let moved := (keys.foldl (stepSnake rng fuel) (st, 0)).1
  let aliveCount := (moved.snakes.filter (fun q => q.2.alive)).length
  if aliveCount ≤ 1 ∧ moved.snakes.length > 1 then
    { moved with status := "finished" }
  else moved

/-- Python `Direction[direction_str.upper()]`, with the `KeyError` branch as
`none`. -/
def parseDirection (s : String) : Option Direction :=
  if s.toUpper = "UP" then some .up
  else if s.toUpper = "DOWN" then some .down
  else if s.toUpper = "LEFT" then some .left
  else if s.toUpper = "RIGHT" then some .right
  else none

/-- `SnakeGameActivity._change_direction`: unknown users and unparsable
direction strings are ignored, a 180-degree reversal relative to the current
facing is rejected, anything else replaces the stored direction. -/
def changeDirection (st : GameState) (uid : String) (dstr : String) : GameState :=
  match lookupAssoc st.snakes uid with
  | none => st
  | some sk =>
    match parseDirection dstr with
    | none => st
    | some nd =>
      if nd.vec.1 + sk.direction.vec.1 = 0 ∧ nd.vec.2 + sk.direction.vec.2 = 0 then st
      else { st with snakes := updateAssoc st.snakes uid { sk with direction := nd } }

/-- The `for _ in range(3): self._spawn_food()` loop of `_add_player`. -/
def spawnInitialFood (rng : ℕ → Pos) (fuel : ℕ) : ℕ → GameState × ℕ → GameState × ℕ
  | 0, acc => acc
  | n + 1, (st, idx) =>
      match spawnFood st.snakes st.food rng fuel idx with
      | some (p, idx2) => spawnInitialFood rng fuel n ({ st with food := st.food ++ [p] }, idx2)
      | none => spawnInitialFood rng fuel n (st, idx + fuel)

/-- `SnakeGameActivity._add_player`: a no-op for a user already in the game,
otherwise spawn a one-cell snake facing right at the drawn spawn position,
zero the score, and seed three food cells if there is no food yet. -/
def addPlayer (st : GameState) (uid : String) (spawn : Pos) (rng : ℕ → Pos) (fuel : ℕ) :
    GameState :=
  if (lookupAssoc st.snakes uid).isSome then st
  else
    let st1 := { st with
      snakes := st.snakes ++ [(uid, { positions := [spawn], direction := .right, alive := true })]
      scores := setAssoc st.scores uid 0 }
    if st1.food = [] then (spawnInitialFood rng fuel 3 (st1, 0)).1 else st1

/-- The message types dispatched by `SnakeGameActivity.user_action`; any other
message type falls through every branch and changes nothing. -/
inductive SnakeAction where
  | join_game
  | change_direction (direction : String)
  | start_game
  | other (t : String)
deriving DecidableEq

/-- `SnakeGameActivity.user_action`, with the random draws of `_add_player`
passed in explicitly. -/
def snake_user_action (st : GameState) (uid : String) (a : SnakeAction)
    (spawn : Pos) (rng : ℕ → Pos) (fuel : ℕ) : GameState :=
  match a with
  | .join_game => addPlayer st uid spawn rng fuel
  | .change_direction d => changeDirection st uid d
  | .start_game => if st.status = "waiting" then { st with status := "playing" } else st
  | .other _ => st

/-! ## Theorems about the snake game -/

theorem spawnFood_some_free (snakes : List (String × Snake)) (food : List Pos)
    (rng : ℕ → Pos) :
    ∀ (fuel i : ℕ) (p : Pos) (j : ℕ), spawnFood snakes food rng fuel i = some (p, j) →
      (∀ q ∈ snakes, p ∉ q.2.positions) ∧ p ∉ food := by
  intro fuel
  induction fuel with
  | zero =>
      intro i p j h
      simp [spawnFood] at h
  | succ n ih =>
      intro i p j h
      unfold spawnFood at h
      by_cases hc : (∃ q ∈ snakes, rng i ∈ q.2.positions) ∨ rng i ∈ food
      · rw [if_pos hc] at h
        exact ih (i + 1) p j h
      · rw [if_neg hc] at h
        simp only [Option.some.injEq, Prod.mk.injEq] at h
        obtain ⟨hp, _⟩ := h
        subst hp
        push_neg at hc
        obtain ⟨h1, h2⟩ := hc
        exact ⟨fun q hq => h1 q hq, h2⟩

theorem spawnFood_none_of_all_occupied (snakes : List (String × Snake)) (food : List Pos)
    (rng : ℕ → Pos)
    (hall : ∀ n, (∃ q ∈ snakes, rng n ∈ q.2.positions) ∨ rng n ∈ food) :
    ∀ fuel i, spawnFood snakes food rng fuel i = none := by
  intro fuel
  induction fuel with
  | zero => intro i; rfl
  | succ n ih =>
      intro i
      unfold spawnFood
      rw [if_pos (hall i)]
      exact ih (i + 1)

/-- C9 counterexample: a game whose only cell (0,0) of a 1-by-1 grid is
occupied by a snake body.  However far the `while True` retry loop of
`_spawn_food` is unrolled, it has neither produced a cell nor skipped: the
spawn does not terminate on a fully occupied grid. -/
theorem food_spawn_no_skip :
    ¬ ∃ fuel : ℕ,
      (spawnFood [("u", { positions := [⟨0, 0⟩], direction := .right, alive := true })] []
        (fun _ => ⟨0, 0⟩) fuel 0).isSome := by
  rintro ⟨fuel, hf⟩
  rw [spawnFood_none_of_all_occupied _ _ _ ?_ fuel 0] at hf
  · simp at hf
  · intro n
    exact Or.inl ⟨("u", { positions := [⟨0, 0⟩], direction := .right, alive := true }),
      by simp, by simp⟩

/-- C9 (amended): the replacement food spawn retries without bound until it
draws a cell occupied by no snake body and no existing food; any cell it
produces is valid, but when every draw is occupied (in particular on a fully
occupied grid) no amount of retries makes it return, and spawning is never
skipped. -/
theorem food_spawn_retry (snakes : List (String × Snake)) (food : List Pos)
    (rng : ℕ → Pos) (fuel i : ℕ) (p : Pos) (j : ℕ) :
    (spawnFood snakes food rng fuel i = some (p, j) →
      (∀ q ∈ snakes, p ∉ q.2.positions) ∧ p ∉ food)
    ∧ ((∀ n, (∃ q ∈ snakes, rng n ∈ q.2.positions) ∨ rng n ∈ food) →
      spawnFood snakes food rng fuel i = none) :=
  ⟨spawnFood_some_free snakes food rng fuel i p j,
   fun hall => spawnFood_none_of_all_occupied snakes food rng hall fuel i⟩

/-- Witness for C9 (amended): a successful draw on an empty board is a free
cell, and the constantly occupied draw of the counterexample state yields
nothing after five retries. -/
theorem food_spawn_retry_witness :
    (spawnFood [] [] (fun _ => (⟨1, 1⟩ : Pos)) 1 0 = some (⟨1, 1⟩, 1) →
      (∀ q ∈ ([] : List (String × Snake)), (⟨1, 1⟩ : Pos) ∉ q.2.positions)
        ∧ (⟨1, 1⟩ : Pos) ∉ ([] : List Pos))
    ∧ ((∀ n : ℕ, (∃ q ∈ [("u", Snake.mk [⟨0, 0⟩] .right true)],
          (fun _ => (⟨0, 0⟩ : Pos)) n ∈ q.2.positions)
        ∨ (fun _ => (⟨0, 0⟩ : Pos)) n ∈ ([] : List Pos)) →
      spawnFood [("u", Snake.mk [⟨0, 0⟩] .right true)] [] (fun _ => ⟨0, 0⟩) 5 0 = none) :=
  food_spawn_retry [] [] (fun _ => ⟨1, 1⟩) 1 0 ⟨1, 1⟩ 1 |>.imp id
    (fun _ _ => (food_spawn_retry [("u", Snake.mk [⟨0, 0⟩] .right true)] []
      (fun _ => ⟨0, 0⟩) 5 0 ⟨1, 1⟩ 1).2 (fun n => Or.inl ⟨("u", Snake.mk [⟨0, 0⟩] .right true),
        by simp, by simp⟩))

/-- C6: a 180-degree reversal relative to the current facing is rejected so
that the whole game state (in particular the stored facing used by the next
tick) is unchanged, and a direction string naming no valid direction is
ignored without surfacing an error. -/
theorem reversal_rejected (st : GameState) (uid dstr : String) (sk : Snake) (nd : Direction)
    (hmem : lookupAssoc st.snakes uid = some sk) :
    (parseDirection dstr = some nd →
        nd.vec.1 + sk.direction.vec.1 = 0 ∧ nd.vec.2 + sk.direction.vec.2 = 0 →
        changeDirection st uid dstr = st)
    ∧ (parseDirection dstr = none → changeDirection st uid dstr = st) := by
  constructor
  · intro hp hrev
    simp only [changeDirection, hmem, hp]
    rw [if_pos hrev]
  · intro hp
    simp only [changeDirection, hmem, hp]

/-- A one-snake game used to instantiate direction-change theorems. -/
def demoGame : GameState :=
  { grid_width := 20, grid_height := 20, status := "playing",
    snakes := [("u", { positions := [⟨5, 5⟩], direction := .right, alive := true })],
    food := [], scores := [("u", 0)] }

/-- Witness for C6: a snake facing right receives the reversal request
"left". -/
theorem reversal_rejected_witness :
    lookupAssoc demoGame.snakes "u"
        = some { positions := [⟨5, 5⟩], direction := Direction.right, alive := true }
    ∧ ((parseDirection "left" = some Direction.left →
          Direction.left.vec.1 + Direction.right.vec.1 = 0
            ∧ Direction.left.vec.2 + Direction.right.vec.2 = 0 →
          changeDirection demoGame "u" "left" = demoGame)
      ∧ (parseDirection "left" = none → changeDirection demoGame "u" "left" = demoGame)) :=
  ⟨by decide,
    reversal_rejected demoGame "u" "left"
      { positions := [⟨5, 5⟩], direction := Direction.right, alive := true }
      Direction.left (by decide)⟩

/-- Two one-cell snakes facing each other two cells apart on an empty 20-by-20
board: both new heads land on the previously free cell (6,5) in the same
tick. -/
def sameCellState : GameState :=
  { grid_width := 20, grid_height := 20, status := "playing",
    snakes := [("a", { positions := [⟨5, 5⟩], direction := .right, alive := true }),
               ("b", { positions := [⟨7, 5⟩], direction := .left, alive := true })],
    food := [], scores := [("a", 0), ("b", 0)] }

/-- C2 counterexample: two snakes whose new heads land on the same previously
free cell in the same tick do not both survive -- the tick kills the
later-processed snake "b" while "a" survives, because collision resolution
reads the bodies as already moved by earlier-processed players rather than a
pre-move snapshot. -/
theorem same_cell_second_dies :
    (lookupAssoc (updateGameState sameCellState (fun _ => ⟨0, 0⟩) 0).snakes "a").map Snake.alive
        = some true
    ∧ (lookupAssoc (updateGameState sameCellState (fun _ => ⟨0, 0⟩) 0).snakes "b").map Snake.alive
        = some false := by
  decide

theorem stepSnake_move_no_food (rng : ℕ → Pos) (fuel : ℕ) (st : GameState) (idx : ℕ)
    (uid : String) (sk : Snake) (head : Pos) (tail : List Pos) (nh : Pos)
    (hmem : lookupAssoc st.snakes uid = some sk)
    (halive : sk.alive = true)
    (hpos : sk.positions = head :: tail)
    (hnh : (⟨head.x + sk.direction.vec.1, head.y + sk.direction.vec.2⟩ : Pos) = nh)
    (hin : ¬(nh.x < 0 ∨ nh.x ≥ st.grid_width ∨ nh.y < 0 ∨ nh.y ≥ st.grid_height))
    (hself : nh ∉ sk.positions)
    (hother : ¬ ∃ q ∈ st.snakes, q.1 ≠ uid ∧ nh ∈ q.2.positions)
    (hfood : nh ∉ st.food) :
    stepSnake rng fuel (st, idx) uid
      = ({ st with snakes := updateAssoc st.snakes uid { sk with positions := (nh :: sk.positions).dropLast } }, idx) := by
  have hx : head.x + sk.direction.vec.1 = nh.x := by rw [← hnh]
  have hy : head.y + sk.direction.vec.2 = nh.y := by rw [← hnh]
  rw [hpos] at hself
  simp only [stepSnake, hmem, halive, hpos]
  simp [hx, hy, hnh, hin, hself, hother, hfood]

theorem stepSnake_kill_other (rng : ℕ → Pos) (fuel : ℕ) (st : GameState) (idx : ℕ)
    (uid : String) (sk : Snake) (head : Pos) (tail : List Pos) (nh : Pos)
    (hmem : lookupAssoc st.snakes uid = some sk)
    (halive : sk.alive = true)
    (hpos : sk.positions = head :: tail)
    (hnh : (⟨head.x + sk.direction.vec.1, head.y + sk.direction.vec.2⟩ : Pos) = nh)
    (hin : ¬(nh.x < 0 ∨ nh.x ≥ st.grid_width ∨ nh.y < 0 ∨ nh.y ≥ st.grid_height))
    (hself : nh ∉ sk.positions)
    (hother : ∃ q ∈ st.snakes, q.1 ≠ uid ∧ nh ∈ q.2.positions) :
    stepSnake rng fuel (st, idx) uid
      = ({ st with snakes := updateAssoc st.snakes uid { sk with alive := false } }, idx) := by
  have hx : head.x + sk.direction.vec.1 = nh.x := by rw [← hnh]
  have hy : head.y + sk.direction.vec.2 = nh.y := by rw [← hnh]
  rw [hpos] at hself
  simp only [stepSnake, hmem, halive, hpos]
  simp [hx, hy, hnh, hin, hself, hother]

/-- C2 (amended): collision resolution reads the bodies as already updated by
the players processed earlier in the same tick, so the outcome depends on the
processing order: of two snakes whose new heads land on the same previously
free in-bounds cell in the same tick, the earlier-processed snake survives
the tick and the later-processed one is killed. -/
theorem same_cell_first_survives (w h : Int) (stat : String) (a b : String)
    (sa sb : Snake) (food : List Pos) (scores : List (String × Nat))
    (rng : ℕ → Pos) (fuel : ℕ) (c ha0 hb0 : Pos) (ta tb : List Pos)
    (hab : a ≠ b)
    (haa : sa.alive = true) (hba : sb.alive = true)
    (hpa : sa.positions = ha0 :: ta) (hpb : sb.positions = hb0 :: tb)
    (hca : (⟨ha0.x + sa.direction.vec.1, ha0.y + sa.direction.vec.2⟩ : Pos) = c)
    (hcb : (⟨hb0.x + sb.direction.vec.1, hb0.y + sb.direction.vec.2⟩ : Pos) = c)
    (hin : ¬(c.x < 0 ∨ c.x ≥ w ∨ c.y < 0 ∨ c.y ≥ h))
    (hfa : c ∉ sa.positions) (hfb : c ∉ sb.positions)
    (hfood : c ∉ food) :
    (lookupAssoc (updateGameState ⟨w, h, stat, [(a, sa), (b, sb)], food, scores⟩ rng fuel).snakes a).map
        Snake.alive = some true
    ∧ (lookupAssoc (updateGameState ⟨w, h, stat, [(a, sa), (b, sb)], food, scores⟩ rng fuel).snakes b).map
        Snake.alive = some false := by
  have hba' : b ≠ a := fun e => hab e.symm
  set st0 : GameState := ⟨w, h, stat, [(a, sa), (b, sb)], food, scores⟩ with hst0
  have hmem_a : lookupAssoc st0.snakes a = some sa := by
    simp [hst0, lookupAssoc]
  have hother_a : ¬ ∃ q ∈ st0.snakes, q.1 ≠ a ∧ c ∈ q.2.positions := by
    rintro ⟨q, hq, hne, hmemc⟩
    simp only [hst0, List.mem_cons, List.not_mem_nil, or_false] at hq
    rcases hq with rfl | rfl
    · exact hne rfl
    · exact hfb hmemc
  have h1 : stepSnake rng fuel (st0, 0) a
      = ({ st0 with snakes := updateAssoc st0.snakes a { sa with positions := (c :: sa.positions).dropLast } }, 0) :=
    stepSnake_move_no_food rng fuel st0 0 a sa ha0 ta c hmem_a haa hpa hca hin hfa hother_a hfood
  set sa2 : Snake := { sa with positions := (c :: sa.positions).dropLast } with hsa2
  have hup1 : updateAssoc st0.snakes a sa2 = [(a, sa2), (b, sb)] := by
    simp [hst0, updateAssoc, hba']
  set st1 : GameState := { st0 with snakes := [(a, sa2), (b, sb)] } with hst1
  have h1' : stepSnake rng fuel (st0, 0) a = (st1, 0) := by
    rw [h1, hup1]
  have hmem_b : lookupAssoc st1.snakes b = some sb := by
    simp [hst1, lookupAssoc, hab]
  have hc_mem_sa2 : c ∈ sa2.positions := by
    rw [hsa2]
    simp only [hpa]
    simp [List.dropLast]
  have hother_b : ∃ q ∈ st1.snakes, q.1 ≠ b ∧ c ∈ q.2.positions :=
    ⟨(a, sa2), by simp [hst1], hab, hc_mem_sa2⟩
  have h2 : stepSnake rng fuel (st1, 0) b
      = ({ st1 with snakes := updateAssoc st1.snakes b { sb with alive := false } }, 0) :=
    stepSnake_kill_other rng fuel st1 0 b sb hb0 tb c hmem_b hba hpb hcb hin hfb hother_b
  have hup2 : updateAssoc st1.snakes b { sb with alive := false }
      = [(a, sa2), (b, { sb with alive := false })] := by
    simp [hst1, updateAssoc, hba', hab]
  have hfold : (List.foldl (stepSnake rng fuel) (st0, 0) [a, b]).1
      = { st1 with snakes := [(a, sa2), (b, { sb with alive := false })] } := by
    simp only [List.foldl, h1', h2, hup2]
  have hkeys : st0.snakes.map Prod.fst = [a, b] := by
    simp [hst0]
  have hsnakes : (updateGameState st0 rng fuel).snakes
      = [(a, sa2), (b, { sb with alive := false })] := by
    simp only [updateGameState]
    rw [hkeys, hfold]
    rw [apply_ite GameState.snakes]
    simp
  constructor
  · rw [hsnakes]
    simp [lookupAssoc, hsa2, haa]
  · rw [hsnakes]
    simp [lookupAssoc, hab, hba']

/-- Witness for C2 (amended), at the concrete two-snake state of the
counterexample. -/
theorem same_cell_first_survives_witness :
    (lookupAssoc (updateGameState ⟨20, 20, "playing",
        [("a", Snake.mk [⟨5, 5⟩] .right true), ("b", Snake.mk [⟨7, 5⟩] .left true)],
        [], [("a", 0), ("b", 0)]⟩ (fun _ => ⟨0, 0⟩) 0).snakes "a").map Snake.alive = some true
    ∧ (lookupAssoc (updateGameState ⟨20, 20, "playing",
        [("a", Snake.mk [⟨5, 5⟩] .right true), ("b", Snake.mk [⟨7, 5⟩] .left true)],
        [], [("a", 0), ("b", 0)]⟩ (fun _ => ⟨0, 0⟩) 0).snakes "b").map Snake.alive = some false :=
  same_cell_first_survives 20 20 "playing" "a" "b"
    (Snake.mk [⟨5, 5⟩] .right true) (Snake.mk [⟨7, 5⟩] .left true)
    [] [("a", 0), ("b", 0)] (fun _ => ⟨0, 0⟩) 0
    ⟨6, 5⟩ ⟨5, 5⟩ ⟨7, 5⟩ [] []
    (by decide) (by decide) (by decide) (by decide) (by decide)
    (by decide) (by decide) (by decide) (by decide) (by decide) (by decide)

theorem lookupAssoc_append_single_ne {κ α : Type} [DecidableEq κ]
    (l : List (κ × α)) (key k : κ) (v : α) (h : key ≠ k) :
    lookupAssoc (l ++ [(key, v)]) k = lookupAssoc l k := by
  induction l with
  | nil => simp [lookupAssoc, h]
  | cons p rest ih =>
      obtain ⟨k0, v0⟩ := p
      by_cases h1 : k0 = k
      · simp [lookupAssoc, h1]
      · simp only [List.cons_append, lookupAssoc, if_neg h1]
        exact ih

theorem lookupAssoc_setAssoc_ne {κ α : Type} [DecidableEq κ]
    (l : List (κ × α)) (key k : κ) (v : α) (h : key ≠ k) :
    lookupAssoc (setAssoc l key v) k = lookupAssoc l k := by
  unfold setAssoc
  by_cases hs : (lookupAssoc l key).isSome
  · rw [if_pos hs]
    exact lookupAssoc_updateAssoc_ne l key k v h
  · rw [if_neg hs]
    exact lookupAssoc_append_single_ne l key k v h

theorem lookupAssoc_updateAssoc_self {κ α : Type} [DecidableEq κ]
    (l : List (κ × α)) (k : κ) (v : α) (h : (lookupAssoc l k).isSome) :
    lookupAssoc (updateAssoc l k v) k = some v := by
  induction l with
  | nil => simp [lookupAssoc] at h
  | cons p rest ih =>
      obtain ⟨k0, v0⟩ := p
      by_cases h1 : k0 = k
      · subst h1
        simp [updateAssoc, lookupAssoc]
      · simp only [lookupAssoc, if_neg h1] at h
        simp only [updateAssoc, if_neg h1, lookupAssoc, if_neg h1]
        exact ih h

theorem lookupAssoc_bumpScore_ne (l : List (String × Nat)) (k uid : String) (h : k ≠ uid) :
    lookupAssoc (bumpScore l k) uid = lookupAssoc l uid := by
  induction l with
  | nil => rfl
  | cons p rest ih =>
      obtain ⟨k0, n⟩ := p
      by_cases h0 : k0 = k
      · subst h0
        simp only [bumpScore, if_pos rfl, lookupAssoc, if_neg h, ih]
      · simp only [bumpScore, if_neg h0]
        by_cases h1 : k0 = uid
        · simp [lookupAssoc, h1]
        · simp only [lookupAssoc, if_neg h1]
          exact ih

theorem stepSnake_dead (rng : ℕ → Pos) (fuel : ℕ) (acc : GameState × ℕ) (k : String)
    (sk : Snake) (hmem : lookupAssoc acc.1.snakes k = some sk) (hdead : sk.alive = false) :
    stepSnake rng fuel acc k = acc := by
  obtain ⟨st, idx⟩ := acc
  simp only [stepSnake, hmem] at *
  simp [hdead]

theorem stepSnake_preserves_other (rng : ℕ → Pos) (fuel : ℕ) (acc : GameState × ℕ)
    (k uid : String) (hne : k ≠ uid) :
    lookupAssoc (stepSnake rng fuel acc k).1.snakes uid = lookupAssoc acc.1.snakes uid
    ∧ lookupAssoc (stepSnake rng fuel acc k).1.scores uid = lookupAssoc acc.1.scores uid := by
  obtain ⟨st, idx⟩ := acc
  simp only [stepSnake]
  rcases hk : lookupAssoc st.snakes k with _ | sk
  · exact ⟨rfl, rfl⟩
  · dsimp only
    by_cases ha : sk.alive = false
    · simp [ha]
    · rw [if_neg ha]
      rcases hpos : sk.positions with _ | ⟨head, t⟩
      · exact ⟨rfl, rfl⟩
      · dsimp only
        split_ifs with h1 h2 h3 h4
        · exact ⟨lookupAssoc_updateAssoc_ne _ _ _ _ hne, rfl⟩
        · exact ⟨lookupAssoc_updateAssoc_ne _ _ _ _ hne, rfl⟩
        · exact ⟨lookupAssoc_updateAssoc_ne _ _ _ _ hne, rfl⟩
        · rcases hsf : spawnFood (updateAssoc st.snakes k
              { positions := ⟨head.x + sk.direction.vec.1, head.y + sk.direction.vec.2⟩ :: head :: t,
                direction := sk.direction, alive := sk.alive })
              (st.food.erase ⟨head.x + sk.direction.vec.1, head.y + sk.direction.vec.2⟩)
              rng fuel idx with _ | pi
          · exact ⟨lookupAssoc_updateAssoc_ne _ _ _ _ hne,
              lookupAssoc_bumpScore_ne _ _ _ hne⟩
          · obtain ⟨p, idx2⟩ := pi
            exact ⟨lookupAssoc_updateAssoc_ne _ _ _ _ hne,
              lookupAssoc_bumpScore_ne _ _ _ hne⟩
        · exact ⟨lookupAssoc_updateAssoc_ne _ _ _ _ hne, rfl⟩

theorem foldl_stepSnake_preserves_dead (rng : ℕ → Pos) (fuel : ℕ) (uid : String)
    (sk : Snake) (hdead : sk.alive = false) :
    ∀ (keys : List String) (acc : GameState × ℕ),
      lookupAssoc acc.1.snakes uid = some sk →
      lookupAssoc (List.foldl (stepSnake rng fuel) acc keys).1.snakes uid = some sk
      ∧ lookupAssoc (List.foldl (stepSnake rng fuel) acc keys).1.scores uid
          = lookupAssoc acc.1.scores uid := by
  intro keys
  induction keys with
  | nil => exact fun acc h => ⟨h, rfl⟩
  | cons k rest ih =>
      intro acc hmem
      rw [List.foldl_cons]
      by_cases hk : k = uid
      · subst hk
        rw [stepSnake_dead rng fuel acc k sk hmem hdead]
        exact ih acc hmem
      · obtain ⟨e1, e2⟩ := stepSnake_preserves_other rng fuel acc k uid hk
        obtain ⟨r1, r2⟩ := ih (stepSnake rng fuel acc k) (by rw [e1]; exact hmem)
        exact ⟨r1, by rw [r2, e2]⟩

theorem updateGameState_preserves_dead (st : GameState) (rng : ℕ → Pos) (fuel : ℕ)
    (uid : String) (sk : Snake)
    (hmem : lookupAssoc st.snakes uid = some sk) (hdead : sk.alive = false) :
    lookupAssoc (updateGameState st rng fuel).snakes uid = some sk
    ∧ lookupAssoc (updateGameState st rng fuel).scores uid = lookupAssoc st.scores uid := by
  obtain ⟨r1, r2⟩ := foldl_stepSnake_preserves_dead rng fuel uid sk hdead
    (st.snakes.map Prod.fst) (st, 0) hmem
  constructor
  · simp only [updateGameState]
    rw [apply_ite GameState.snakes]
    dsimp only
    rw [ite_self]
    exact r1
  · simp only [updateGameState]
    rw [apply_ite GameState.scores]
    dsimp only
    rw [ite_self]
    exact r2

theorem spawnInitialFood_fields (rng : ℕ → Pos) (fuel : ℕ) :
    ∀ (n : ℕ) (acc : GameState × ℕ),
      (spawnInitialFood rng fuel n acc).1.snakes = acc.1.snakes
      ∧ (spawnInitialFood rng fuel n acc).1.scores = acc.1.scores := by
  intro n
  induction n with
  | zero => exact fun acc => ⟨rfl, rfl⟩
  | succ m ih =>
      rintro ⟨st, idx⟩
      simp only [spawnInitialFood]
      rcases hsf : spawnFood st.snakes st.food rng fuel idx with _ | pi
      · exact ih (st, idx + fuel)
      · obtain ⟨p, idx2⟩ := pi
        exact ih ({ st with food := st.food ++ [p] }, idx2)

theorem addPlayer_mem (st : GameState) (uid : String) (spawn : Pos) (rng : ℕ → Pos)
    (fuel : ℕ) (h : (lookupAssoc st.snakes uid).isSome) :
    addPlayer st uid spawn rng fuel = st := by
  simp only [addPlayer]
  rw [if_pos h]

theorem snake_action_preserves_dead (st : GameState) (uid2 uid : String) (a : SnakeAction)
    (spawn : Pos) (rng : ℕ → Pos) (fuel : ℕ) (sk : Snake)
    (hmem : lookupAssoc st.snakes uid = some sk) (hdead : sk.alive = false) :
    ∃ sk2, lookupAssoc (snake_user_action st uid2 a spawn rng fuel).snakes uid = some sk2
      ∧ sk2.positions = sk.positions ∧ sk2.alive = false
      ∧ lookupAssoc (snake_user_action st uid2 a spawn rng fuel).scores uid
          = lookupAssoc st.scores uid := by
  cases a with
  | join_game =>
      simp only [snake_user_action]
      by_cases hp : (lookupAssoc st.snakes uid2).isSome
      · rw [addPlayer_mem st uid2 spawn rng fuel hp]
        exact ⟨sk, hmem, rfl, hdead, rfl⟩
      · have hne : uid2 ≠ uid := by
          intro e
          rw [e, hmem] at hp
          simp at hp
        simp only [addPlayer]
        rw [if_neg hp]
        split_ifs with hf
        · obtain ⟨f1, f2⟩ := spawnInitialFood_fields rng fuel 3
            ({ st with
                snakes := st.snakes
                  ++ [(uid2, { positions := [spawn], direction := .right, alive := true })],
                scores := setAssoc st.scores uid2 0 }, 0)
          refine ⟨sk, ?_, rfl, hdead, ?_⟩
          · rw [f1]
            dsimp only
            rw [lookupAssoc_append_left _ _ _ (by simp [hmem])]
            exact hmem
          · rw [f2]
            dsimp only
            exact lookupAssoc_setAssoc_ne _ _ _ _ hne
        · refine ⟨sk, ?_, rfl, hdead, ?_⟩
          · dsimp only
            rw [lookupAssoc_append_left _ _ _ (by simp [hmem])]
            exact hmem
          · dsimp only
            exact lookupAssoc_setAssoc_ne _ _ _ _ hne
  | change_direction d =>
      simp only [snake_user_action, changeDirection]
      rcases hm2 : lookupAssoc st.snakes uid2 with _ | sk2
      · exact ⟨sk, hmem, rfl, hdead, rfl⟩
      · dsimp only
        rcases hpd : parseDirection d with _ | nd
        · exact ⟨sk, hmem, rfl, hdead, rfl⟩
        · dsimp only
          split_ifs with hrev
          · exact ⟨sk, hmem, rfl, hdead, rfl⟩
          · by_cases he : uid2 = uid
            · subst he
              have hss : sk2 = sk := by
                rw [hm2] at hmem
                exact Option.some.inj hmem
              subst hss
              exact ⟨{ sk2 with direction := nd },
                lookupAssoc_updateAssoc_self _ _ _ (by simp [hm2]), rfl, hdead, rfl⟩
            · refine ⟨sk, ?_, rfl, hdead, rfl⟩
              rw [lookupAssoc_updateAssoc_ne _ _ _ _ he]
              exact hmem
  | start_game =>
      simp only [snake_user_action]
      split_ifs with hw
      · exact ⟨sk, hmem, rfl, hdead, rfl⟩
      · exact ⟨sk, hmem, rfl, hdead, rfl⟩
  | other t => exact ⟨sk, hmem, rfl, hdead, rfl⟩

/-- A step of a running snake game session: either one tick of the background
loop or one user action, with the random draws made explicit. -/
inductive GStep where
  | tick (rng : ℕ → Pos) (fuel : ℕ)
  | act (uid : String) (a : SnakeAction) (spawn : Pos) (rng : ℕ → Pos) (fuel : ℕ)

def applyGStep (st : GameState) : GStep → GameState
  | .tick rng fuel => updateGameState st rng fuel
  | .act uid a spawn rng fuel => snake_user_action st uid a spawn rng fuel

def runGSteps (st : GameState) (steps : List GStep) : GameState :=
  steps.foldl applyGStep st

theorem applyGStep_preserves_dead (st : GameState) (s : GStep) (uid : String) (sk : Snake)
    (hmem : lookupAssoc st.snakes uid = some sk) (hdead : sk.alive = false) :
    ∃ sk2, lookupAssoc (applyGStep st s).snakes uid = some sk2
      ∧ sk2.positions = sk.positions ∧ sk2.alive = false
      ∧ lookupAssoc (applyGStep st s).scores uid = lookupAssoc st.scores uid := by
  cases s with
  | tick rng fuel =>
      obtain ⟨r1, r2⟩ := updateGameState_preserves_dead st rng fuel uid sk hmem hdead
      exact ⟨sk, r1, rfl, hdead, r2⟩
  | act uid2 a spawn rng fuel =>
      exact snake_action_preserves_dead st uid2 uid a spawn rng fuel sk hmem hdead

theorem runGSteps_preserves_dead (uid : String) :
    ∀ (steps : List GStep) (st : GameState) (sk : Snake),
      lookupAssoc st.snakes uid = some sk → sk.alive = false →
      ∃ sk2, lookupAssoc (runGSteps st steps).snakes uid = some sk2
        ∧ sk2.positions = sk.positions ∧ sk2.alive = false
        ∧ lookupAssoc (runGSteps st steps).scores uid = lookupAssoc st.scores uid := by
  intro steps
  induction steps with
  | nil => exact fun st sk hmem hdead => ⟨sk, hmem, rfl, hdead, rfl⟩
  | cons s rest ih =>
      intro st sk hmem hdead
      obtain ⟨sk1, h1, hpos1, hal1, hsc1⟩ := applyGStep_preserves_dead st s uid sk hmem hdead
      obtain ⟨sk2, h2, hpos2, hal2, hsc2⟩ := ih (applyGStep st s) sk1 h1 hal1
      exact ⟨sk2, h2, hpos2.trans hpos1, hal2, hsc2.trans hsc1⟩

/-- C10: once a player of the snake game is dead, no subsequent tick update or
user action of the same session moves that snake, changes its score, or
revives it; and a second join_game for a user already present in the game
leaves the whole game state (their snake, direction and score included)
unchanged. -/
theorem dead_snake_stays_dead (st : GameState) (uid : String) (sk : Snake)
    (steps : List GStep) (spawn : Pos) (rng : ℕ → Pos) (fuel : ℕ)
    (hmem : lookupAssoc st.snakes uid = some sk) :
    (sk.alive = false →
      ∃ sk2, lookupAssoc (runGSteps st steps).snakes uid = some sk2
        ∧ sk2.positions = sk.positions ∧ sk2.alive = false
        ∧ lookupAssoc (runGSteps st steps).scores uid = lookupAssoc st.scores uid)
    ∧ snake_user_action st uid .join_game spawn rng fuel = st :=
  ⟨fun hdead => runGSteps_preserves_dead uid steps st sk hmem hdead,
   by
    simp only [snake_user_action]
    exact addPlayer_mem st uid spawn rng fuel (by simp [hmem])⟩

/-- A game with a dead snake "u" next to a living snake "v". -/
def deadDemo : GameState :=
  { grid_width := 20, grid_height := 20, status := "playing",
    snakes := [("u", { positions := [⟨5, 5⟩], direction := .right, alive := false }),
               ("v", { positions := [⟨9, 9⟩], direction := .up, alive := true })],
    food := [], scores := [("u", 2), ("v", 0)] }

/-- Witness for C10: a tick, a direction change by the living player and a
repeated join by the dead player, applied after the dead snake "u". -/
theorem dead_snake_stays_dead_witness :
    ((Snake.mk [⟨5, 5⟩] .right false).alive = false →
      ∃ sk2, lookupAssoc (runGSteps deadDemo
          [GStep.tick (fun _ => ⟨0, 0⟩) 1,
           GStep.act "v" (SnakeAction.change_direction "down") ⟨1, 1⟩ (fun _ => ⟨0, 0⟩) 1,
           GStep.act "u" SnakeAction.join_game ⟨1, 1⟩ (fun _ => ⟨0, 0⟩) 1]).snakes "u" = some sk2
        ∧ sk2.positions = (Snake.mk [⟨5, 5⟩] .right false).positions ∧ sk2.alive = false
        ∧ lookupAssoc (runGSteps deadDemo
            [GStep.tick (fun _ => ⟨0, 0⟩) 1,
             GStep.act "v" (SnakeAction.change_direction "down") ⟨1, 1⟩ (fun _ => ⟨0, 0⟩) 1,
             GStep.act "u" SnakeAction.join_game ⟨1, 1⟩ (fun _ => ⟨0, 0⟩) 1]).scores "u"
          = lookupAssoc deadDemo.scores "u")
    ∧ snake_user_action deadDemo "u" .join_game ⟨1, 1⟩ (fun _ => ⟨0, 0⟩) 1 = deadDemo :=
  dead_snake_stays_dead deadDemo "u" (Snake.mk [⟨5, 5⟩] .right false)
    [GStep.tick (fun _ => ⟨0, 0⟩) 1,
     GStep.act "v" (SnakeAction.change_direction "down") ⟨1, 1⟩ (fun _ => ⟨0, 0⟩) 1,
     GStep.act "u" SnakeAction.join_game ⟨1, 1⟩ (fun _ => ⟨0, 0⟩) 1]
    ⟨1, 1⟩ (fun _ => ⟨0, 0⟩) 1 (by decide)


/-! ## Activity registry and connection manager

`RoomActivityRegistry` and `ExtendedConnectionManager.connect` follow the
Python sources; the `disconnect` handler invoked by the websocket endpoint is
not among the sources and is modelled from the spec. -/

inductive ActivityType where
  | chat
  | snake
  | youtube
  | whiteboard
  | poll
deriving DecidableEq

inductive RoomRole where
  | host
  | moderator
  | participant
deriving DecidableEq

/-- Python `ActivityType(data['activity_type'])`, by enum value; `none` is the
`ValueError` branch. -/
def parseActivityType (s : String) : Option ActivityType :=
  if s = "chat" then some .chat
  else if s = "snake" then some .snake
  else if s = "youtube" then some .youtube
  else if s = "whiteboard" then some .whiteboard
  else if s = "poll" then some .poll
  else none

/-- Membership in the registry's `activity_types` constructor table, which
lists only chat, snake and youtube. -/
def inActivityTable : ActivityType → Bool
  | .chat => true
  | .snake => true
  | .youtube => true
  | .whiteboard => false
  | .poll => false

/-- A room's live ActivityManager as far as the registry observes it: its
type tag and whether it is running (`start` sets it, `stop` clears it). -/
structure ActivityManagerRec where
  atype : ActivityType
  running : Bool
deriving DecidableEq

structure RoomActivityRegistry where
  rooms : List (String × ActivityManagerRec)
  room_hosts : List (String × String)
  user_roles : List (String × List (String × RoomRole))
deriving DecidableEq

/-- `RoomActivityRegistry.set_room_host`. -/
def set_room_host (reg : RoomActivityRegistry) (room uid : String) : RoomActivityRegistry :=
  { reg with
    room_hosts := setAssoc reg.room_hosts room uid
    user_roles := setAssoc reg.user_roles room
      (setAssoc ((lookupAssoc reg.user_roles room).getD []) uid RoomRole.host) }

/-- `RoomActivityRegistry.get_user_role`. -/
def get_user_role (reg : RoomActivityRegistry) (room uid : String) : RoomRole :=
  match lookupAssoc reg.user_roles room with
  | none => RoomRole.participant
  | some m => (lookupAssoc m uid).getD RoomRole.participant

/-- `RoomActivityRegistry.can_change_activity`. -/
def can_change_activity (reg : RoomActivityRegistry) (room uid : String) : Bool :=
  decide (get_user_role reg room uid = RoomRole.host)

/-- `RoomActivityRegistry.change_room_activity`: permission check first, then
the constructor-table check, then stop the old instance and start a freshly
constructed one. -/
def change_room_activity (reg : RoomActivityRegistry) (room uid : String)
    (atype : ActivityType) : Bool × String × RoomActivityRegistry :=
  if can_change_activity reg room uid then
    if inActivityTable atype then
      (true, "Activity changed",
        { reg with rooms := setAssoc reg.rooms room ⟨atype, true⟩ })
    else (false, "Unknown activity type", reg)
  else (false, "Only the room host can change activities", reg)

/-- Outbound deliveries of `handle_activity_change`: an error sent to the
requesting connection only, a room-wide broadcast, or a per-member state
snapshot. -/
inductive OutEvent where
  | toSender (msg : String)
  | broadcastRoom (msg : String)
  | snapshotTo (user : String)
deriving DecidableEq

/-- `ExtendedConnectionManager.handle_activity_change`: parse the requested
type (`ValueError` answers the sender only), delegate to
`change_room_activity`, and on success broadcast the change and push fresh
snapshots; on failure answer the sender only. -/
def handle_activity_change (reg : RoomActivityRegistry) (room uid atypeStr : String)
    (members : List String) : RoomActivityRegistry × List OutEvent :=
  match parseActivityType atypeStr with
  | none => (reg, [.toSender "Invalid activity type"])
  | some atype =>
      let r := change_room_activity reg room uid atype
      if r.1 then
        (r.2.2, .broadcastRoom "activity_changed" :: members.map OutEvent.snapshotTo)
      else (reg, [.toSender r.2.1])

structure ExtendedConnectionManager where
  rooms : List (String × List ℕ)
  client_info : List (ℕ × String × String)
  registry : RoomActivityRegistry
deriving DecidableEq

/-- The empty manager together with the module-level `activity_registry`. -/
def ExtendedConnectionManager.empty : ExtendedConnectionManager :=
  ⟨[], [], ⟨[], [], []⟩⟩

/-- Python `set.add`. -/
def insertMember (l : List ℕ) (ws : ℕ) : List ℕ :=
  if ws ∈ l then l else l ++ [ws]

/-- `ExtendedConnectionManager.connect`: create the room and make the first
joiner host when the room is new, record the member and its info, and install
the default chat activity when the room has none. -/
def connect (m : ExtendedConnectionManager) (ws : ℕ) (room username : String) :
    ExtendedConnectionManager :=
  let init :=
    if (lookupAssoc m.rooms room).isSome then (m.rooms, m.registry)
    else (m.rooms ++ [(room, [])], set_room_host m.registry room username)
  let rooms1 := updateAssoc init.1 room (insertMember ((lookupAssoc init.1 room).getD []) ws)
  let ci := setAssoc m.client_info ws (room, username)
  let reg1 :=
    if (lookupAssoc init.2.rooms room).isSome then init.2
    else (change_room_activity init.2 room username ActivityType.chat).2.2
  ⟨rooms1, ci, reg1⟩

/-- Modelled from the spec: the websocket endpoint calls
`manager.disconnect(websocket)` on disconnect but its body is not among the
sources, so the spec's `leave` is used: idempotent for unknown handles;
removes the member; when the leaver was host, reassigns host deterministically
to the earliest remaining joiner; and deletes the room together with its
activity and host entry when membership reaches zero. -/
def disconnect (m : ExtendedConnectionManager) (ws : ℕ) : ExtendedConnectionManager :=
  match lookupAssoc m.client_info ws with
  | none => m
  | some info =>
      let room := info.1
      let username := info.2
      let members := ((lookupAssoc m.rooms room).getD []).erase ws
      if members = [] then
        { rooms := eraseKey m.rooms room
          client_info := eraseKey m.client_info ws
          registry := { m.registry with
            rooms := eraseKey m.registry.rooms room
            room_hosts := eraseKey m.registry.room_hosts room } }
      else
        let newReg :=
          if lookupAssoc m.registry.room_hosts room = some username then
            match members with
            | [] => m.registry
            | w :: _ => set_room_host m.registry room
                (((lookupAssoc m.client_info w).map Prod.snd).getD username)
          else m.registry
        { rooms := updateAssoc m.rooms room members
          client_info := eraseKey m.client_info ws
          registry := newReg }

/-- A join or leave reaching the connection manager. -/
inductive ConnOp where
  | join (ws : ℕ) (room username : String)
  | leave (ws : ℕ)

def applyConnOp (m : ExtendedConnectionManager) : ConnOp → ExtendedConnectionManager
  | .join ws room username => connect m ws room username
  | .leave ws => disconnect m ws

def runConnOps (ops : List ConnOp) : ExtendedConnectionManager :=
  ops.foldl applyConnOp ExtendedConnectionManager.empty

def memberCount (m : ExtendedConnectionManager) (room : String) : ℕ :=
  ((lookupAssoc m.rooms room).getD []).length


/-! ## Theorems about the activity registry and the connection registry -/

/-- C7: a change_activity request from a user who is not the room's host
fails: the registry, hence the room's current ActivityManager together with
its running flag, is unchanged, and exactly one error event goes back to the
offending connection -- nothing is broadcast room-wide; only a host request
switches the activity. -/
theorem non_host_cannot_change_activity (reg : RoomActivityRegistry)
    (room uid atypeStr : String) (members : List String)
    (hrole : get_user_role reg room uid ≠ RoomRole.host) :
    (handle_activity_change reg room uid atypeStr members).1 = reg
    ∧ (∃ msg, (handle_activity_change reg room uid atypeStr members).2
        = [OutEvent.toSender msg])
    ∧ lookupAssoc (handle_activity_change reg room uid atypeStr members).1.rooms room
        = lookupAssoc reg.rooms room := by
  have hcan : can_change_activity reg room uid = false := by
    unfold can_change_activity
    exact decide_eq_false hrole
  unfold handle_activity_change
  rcases hpt : parseActivityType atypeStr with _ | atype
  · exact ⟨rfl, ⟨"Invalid activity type", rfl⟩, rfl⟩
  · dsimp only
    unfold change_room_activity
    rw [hcan]
    exact ⟨rfl, ⟨"Only the room host can change activities", rfl⟩, rfl⟩

/-- Witness for C7: "bob" is a plain participant of the empty registry. -/
theorem non_host_cannot_change_activity_witness :
    get_user_role ⟨[], [], []⟩ "r" "bob" ≠ RoomRole.host
    ∧ ((handle_activity_change ⟨[], [], []⟩ "r" "bob" "snake" ["alice", "bob"]).1
          = (⟨[], [], []⟩ : RoomActivityRegistry)
      ∧ (∃ msg, (handle_activity_change ⟨[], [], []⟩ "r" "bob" "snake" ["alice", "bob"]).2
          = [OutEvent.toSender msg])
      ∧ lookupAssoc (handle_activity_change ⟨[], [], []⟩ "r" "bob" "snake"
            ["alice", "bob"]).1.rooms "r"
          = lookupAssoc (RoomActivityRegistry.mk [] [] []).rooms "r") :=
  ⟨by decide,
    non_host_cannot_change_activity ⟨[], [], []⟩ "r" "bob" "snake" ["alice", "bob"] (by decide)⟩

theorem mem_of_lookupAssoc_some {κ α : Type} [DecidableEq κ] (l : List (κ × α)) (k : κ)
    (v : α) (h : lookupAssoc l k = some v) : (k, v) ∈ l := by
  induction l with
  | nil => simp [lookupAssoc] at h
  | cons p rest ih =>
      obtain ⟨k0, v0⟩ := p
      by_cases h1 : k0 = k
      · subst h1
        simp [lookupAssoc] at h
        subst h
        exact List.mem_cons_self _ _
      · simp only [lookupAssoc, if_neg h1] at h
        exact List.mem_cons_of_mem _ (ih h)

theorem lookupAssoc_isSome_of_mem {κ α : Type} [DecidableEq κ] (l : List (κ × α)) (k : κ)
    (v : α) (h : (k, v) ∈ l) : (lookupAssoc l k).isSome := by
  induction l with
  | nil => simp at h
  | cons p rest ih =>
      obtain ⟨k0, v0⟩ := p
      by_cases h1 : k0 = k
      · simp [lookupAssoc, h1]
      · rcases List.mem_cons.mp h with he | hm
        · obtain ⟨hk, -⟩ := Prod.mk.injEq .. ▸ he
          exact absurd hk.symm h1
        · simp only [lookupAssoc, if_neg h1]
          exact ih hm

theorem lookupAssoc_updateAssoc_none {κ α : Type} [DecidableEq κ] (l : List (κ × α))
    (k : κ) (v : α) (h : lookupAssoc l k = none) :
    lookupAssoc (updateAssoc l k v) k = none := by
  induction l with
  | nil => rfl
  | cons p rest ih =>
      obtain ⟨k0, v0⟩ := p
      by_cases h1 : k0 = k
      · simp only [lookupAssoc, if_pos h1] at h
        simp at h
      · simp only [lookupAssoc, if_neg h1] at h
        simp only [updateAssoc, if_neg h1, lookupAssoc, if_neg h1]
        exact ih h

theorem lookupAssoc_updateAssoc_isSome {κ α : Type} [DecidableEq κ] (l : List (κ × α))
    (k j : κ) (v : α) :
    (lookupAssoc (updateAssoc l k v) j).isSome = (lookupAssoc l j).isSome := by
  by_cases h : k = j
  · subst h
    rcases hl : lookupAssoc l k with _ | w
    · rw [lookupAssoc_updateAssoc_none l k v hl]
    · rw [lookupAssoc_updateAssoc_self l k v (by rw [hl]; rfl)]
      rfl
  · rw [lookupAssoc_updateAssoc_ne l k j v h]

theorem mem_updateAssoc {κ α : Type} [DecidableEq κ] (l : List (κ × α)) (k : κ) (v : α)
    (p : κ × α) (h : p ∈ updateAssoc l k v) :
    (p.1 = k ∧ p.2 = v) ∨ (p ∈ l ∧ p.1 ≠ k) := by
  induction l with
  | nil => simp [updateAssoc] at h
  | cons q rest ih =>
      obtain ⟨k0, v0⟩ := q
      by_cases h1 : k0 = k
      · subst h1
        simp only [updateAssoc, if_pos rfl] at h
        rcases List.mem_cons.mp h with he | hm
        · rw [he]
          exact Or.inl ⟨rfl, rfl⟩
        · exact (ih hm).imp id (fun hh => ⟨List.mem_cons_of_mem _ hh.1, hh.2⟩)
      · simp only [updateAssoc, if_neg h1] at h
        rcases List.mem_cons.mp h with he | hm
        · rw [he]
          exact Or.inr ⟨List.mem_cons_self _ _, h1⟩
        · exact (ih hm).imp id (fun hh => ⟨List.mem_cons_of_mem _ hh.1, hh.2⟩)

theorem lookupAssoc_append_right_none {κ α : Type} [DecidableEq κ] (l l2 : List (κ × α))
    (k : κ) (h : lookupAssoc l k = none) :
    lookupAssoc (l ++ l2) k = lookupAssoc l2 k := by
  induction l with
  | nil => rfl
  | cons p rest ih =>
      obtain ⟨k0, v0⟩ := p
      by_cases h1 : k0 = k
      · simp only [lookupAssoc, if_pos h1] at h
        simp at h
      · simp only [lookupAssoc, if_neg h1] at h
        simp only [List.cons_append, lookupAssoc, if_neg h1]
        exact ih h

theorem mem_setAssoc {κ α : Type} [DecidableEq κ] (l : List (κ × α)) (k : κ) (v : α)
    (p : κ × α) (h : p ∈ setAssoc l k v) : (p.1 = k ∧ p.2 = v) ∨ p ∈ l := by
  unfold setAssoc at h
  by_cases hs : (lookupAssoc l k).isSome
  · rw [if_pos hs] at h
    exact (mem_updateAssoc l k v p h).imp id And.left
  · rw [if_neg hs] at h
    rcases List.mem_append.mp h with hm | hm
    · exact Or.inr hm
    · simp only [List.mem_singleton] at hm
      rw [hm]
      exact Or.inl ⟨rfl, rfl⟩

theorem lookupAssoc_setAssoc_self {κ α : Type} [DecidableEq κ] (l : List (κ × α)) (k : κ)
    (v : α) : lookupAssoc (setAssoc l k v) k = some v := by
  unfold setAssoc
  by_cases hs : (lookupAssoc l k).isSome
  · rw [if_pos hs]
    exact lookupAssoc_updateAssoc_self l k v hs
  · rw [if_neg hs]
    have hn : lookupAssoc l k = none := Option.not_isSome_iff_eq_none.mp hs
    rw [lookupAssoc_append_right_none l _ k hn]
    simp [lookupAssoc]

theorem mem_eraseKey {κ α : Type} [DecidableEq κ] (l : List (κ × α)) (k : κ) (p : κ × α)
    (h : p ∈ eraseKey l k) : p ∈ l ∧ p.1 ≠ k := by
  induction l with
  | nil => simp [eraseKey] at h
  | cons q rest ih =>
      obtain ⟨k0, v0⟩ := q
      by_cases h1 : k0 = k
      · simp only [eraseKey, if_pos h1] at h
        exact ⟨List.mem_cons_of_mem _ (ih h).1, (ih h).2⟩
      · simp only [eraseKey, if_neg h1] at h
        rcases List.mem_cons.mp h with he | hm
        · rw [he]
          exact ⟨List.mem_cons_self _ _, h1⟩
        · exact ⟨List.mem_cons_of_mem _ (ih hm).1, (ih hm).2⟩

theorem lookupAssoc_eraseKey_ne {κ α : Type} [DecidableEq κ] (l : List (κ × α)) (k j : κ)
    (h : j ≠ k) : lookupAssoc (eraseKey l k) j = lookupAssoc l j := by
  induction l with
  | nil => rfl
  | cons p rest ih =>
      obtain ⟨k0, v0⟩ := p
      by_cases h1 : k0 = k
      · subst h1
        have h2 : k0 ≠ j := fun e => h (e.symm)
        simp only [eraseKey, if_pos rfl, lookupAssoc, if_neg h2]
        exact ih
      · simp only [eraseKey, if_neg h1, lookupAssoc]
        by_cases h2 : k0 = j
        · simp [h2]
        · simp only [if_neg h2]
          exact ih

theorem insertMember_ne_nil (l : List ℕ) (ws : ℕ) : insertMember l ws ≠ [] := by
  unfold insertMember
  split_ifs with h
  · intro e
    rw [e] at h
    simp at h
  · simp

/-- The inductive invariant of the connection registry: every room entry has a
non-empty member set, and the connection registry and the activity registry
hold entries for exactly the same rooms. -/
def ConnInv (m : ExtendedConnectionManager) : Prop :=
  (∀ p ∈ m.rooms, p.2 ≠ ([] : List ℕ))
  ∧ (∀ p ∈ m.rooms, (lookupAssoc m.registry.rooms p.1).isSome)
  ∧ (∀ q ∈ m.registry.rooms, (lookupAssoc m.rooms q.1).isSome)


theorem connInv_connect (m : ExtendedConnectionManager) (ws : ℕ) (room username : String)
    (h : ConnInv m) : ConnInv (connect m ws room username) := by
  obtain ⟨h1, h2, h3⟩ := h
  by_cases hr : (lookupAssoc m.rooms room).isSome
  · have hact : (lookupAssoc m.registry.rooms room).isSome := by
      rcases hl : lookupAssoc m.rooms room with _ | v
      · rw [hl] at hr
        simp at hr
      · exact h2 (room, v) (mem_of_lookupAssoc_some _ _ _ hl)
    simp only [connect]
    rw [if_pos hr]
    dsimp only
    rw [if_pos hact]
    refine ⟨?_, ?_, ?_⟩
    · intro p hp
      rcases mem_updateAssoc _ _ _ _ hp with ⟨hk, hv⟩ | ⟨hm, hne⟩
      · rw [hv]
        exact insertMember_ne_nil _ _
      · exact h1 p hm
    · intro p hp
      rcases mem_updateAssoc _ _ _ _ hp with ⟨hk, hv⟩ | ⟨hm, hne⟩
      · rw [hk]
        exact hact
      · exact h2 p hm
    · intro q hq
      rw [lookupAssoc_updateAssoc_isSome]
      exact h3 q hq
  · have hrn : lookupAssoc m.rooms room = none := Option.not_isSome_iff_eq_none.mp hr
    have hactn : lookupAssoc m.registry.rooms room = none := by
      rcases hl : lookupAssoc m.registry.rooms room with _ | act
      · rfl
      · exact absurd (h3 (room, act) (mem_of_lookupAssoc_some _ _ _ hl)) hr
    have hlook0 : lookupAssoc (m.rooms ++ [(room, [])]) room = some [] := by
      rw [lookupAssoc_append_right_none _ _ _ hrn]
      simp [lookupAssoc]
    have hrole : get_user_role (set_room_host m.registry room username) room username
        = RoomRole.host := by
      unfold get_user_role set_room_host
      dsimp only
      rw [lookupAssoc_setAssoc_self]
      dsimp only
      rw [lookupAssoc_setAssoc_self]
      rfl
    have hchg : (change_room_activity (set_room_host m.registry room username) room username
          ActivityType.chat).2.2
        = { rooms := setAssoc m.registry.rooms room ⟨ActivityType.chat, true⟩,
            room_hosts := (set_room_host m.registry room username).room_hosts,
            user_roles := (set_room_host m.registry room username).user_roles } := by
      unfold change_room_activity can_change_activity
      rw [hrole]
      rfl
    simp only [connect]
    rw [if_neg hr]
    rw [show (set_room_host m.registry room username).rooms = m.registry.rooms from rfl,
      if_neg (by rw [hactn]; simp)]
    rw [hchg, hlook0]
    refine ⟨?_, ?_, ?_⟩
    · intro p hp
      dsimp only at hp
      rcases mem_updateAssoc _ _ _ _ hp with ⟨hk, hv⟩ | ⟨hm, hne⟩
      · rw [hv]
        exact insertMember_ne_nil _ _
      · rcases List.mem_append.mp hm with hm2 | hm2
        · exact h1 p hm2
        · simp only [List.mem_singleton] at hm2
          rw [hm2] at hne
          exact absurd rfl hne
    · intro p hp
      dsimp only at hp ⊢
      rcases mem_updateAssoc _ _ _ _ hp with ⟨hk, hv⟩ | ⟨hm, hne⟩
      · rw [hk, lookupAssoc_setAssoc_self]
        rfl
      · rw [lookupAssoc_setAssoc_ne _ _ _ _ (fun e => hne e.symm)]
        rcases List.mem_append.mp hm with hm2 | hm2
        · exact h2 p hm2
        · simp only [List.mem_singleton] at hm2
          rw [hm2] at hne
          exact absurd rfl hne
    · intro q hq
      dsimp only at hq ⊢
      rw [lookupAssoc_updateAssoc_isSome]
      rcases mem_setAssoc _ _ _ _ hq with ⟨hk, hv⟩ | hm
      · rw [hk, hlook0]
        rfl
      · have hq1 : (lookupAssoc m.rooms q.1).isSome := h3 q hm
        rw [lookupAssoc_append_left _ _ _ hq1]
        exact hq1

theorem connInv_disconnect (m : ExtendedConnectionManager) (ws : ℕ)
    (h : ConnInv m) : ConnInv (disconnect m ws) := by
  obtain ⟨h1, h2, h3⟩ := h
  simp only [disconnect]
  rcases hci : lookupAssoc m.client_info ws with _ | info
  · exact ⟨h1, h2, h3⟩
  · dsimp only
    by_cases hemp : ((lookupAssoc m.rooms info.1).getD []).erase ws = []
    · rw [if_pos hemp]
      refine ⟨?_, ?_, ?_⟩
      · intro p hp
        exact h1 p (mem_eraseKey _ _ _ hp).1
      · intro p hp
        obtain ⟨hm, hne⟩ := mem_eraseKey _ _ _ hp
        rw [lookupAssoc_eraseKey_ne _ _ _ hne]
        exact h2 p hm
      · intro q hq
        obtain ⟨hm, hne⟩ := mem_eraseKey _ _ _ hq
        rw [lookupAssoc_eraseKey_ne _ _ _ hne]
        exact h3 q hm
    · rw [if_neg hemp]
      have hpres : (lookupAssoc m.rooms info.1).isSome := by
        rcases hl : lookupAssoc m.rooms info.1 with _ | v
        · exact absurd (by rw [hl]; rfl) hemp
        · rfl
      have hact : (lookupAssoc m.registry.rooms info.1).isSome := by
        rcases hl : lookupAssoc m.rooms info.1 with _ | v
        · rw [hl] at hpres
          simp at hpres
        · exact h2 (info.1, v) (mem_of_lookupAssoc_some _ _ _ hl)
      have hnr : (if lookupAssoc m.registry.room_hosts info.1 = some info.2 then
            match ((lookupAssoc m.rooms info.1).getD []).erase ws with
            | [] => m.registry
            | w :: _ => set_room_host m.registry info.1
                (((lookupAssoc m.client_info w).map Prod.snd).getD info.2)
          else m.registry).rooms = m.registry.rooms := by
        split_ifs
        · rcases ((lookupAssoc m.rooms info.1).getD []).erase ws with _ | ⟨w, rest⟩
          · rfl
          · rfl
        · rfl
      refine ⟨?_, ?_, ?_⟩
      · intro p hp
        rcases mem_updateAssoc _ _ _ _ hp with ⟨hk, hv⟩ | ⟨hm, hne⟩
        · rw [hv]
          exact hemp
        · exact h1 p hm
      · intro p hp
        dsimp only
        rw [hnr]
        rcases mem_updateAssoc _ _ _ _ hp with ⟨hk, hv⟩ | ⟨hm, hne⟩
        · rw [hk]
          exact hact
        · exact h2 p hm
      · intro q hq
        dsimp only at hq
        rw [hnr] at hq
        rw [lookupAssoc_updateAssoc_isSome]
        exact h3 q hq

theorem connInv_run (ops : List ConnOp) : ConnInv (runConnOps ops) := by
  have hbase : ConnInv ExtendedConnectionManager.empty := by
    refine ⟨?_, ?_, ?_⟩ <;> intro p hp <;> simp [ExtendedConnectionManager.empty] at hp
  suffices hgen : ∀ (l : List ConnOp) (m : ExtendedConnectionManager),
      ConnInv m → ConnInv (l.foldl applyConnOp m) by
    exact hgen ops _ hbase
  intro l
  induction l with
  | nil => exact fun m hm => hm
  | cons op rest ih =>
      intro m hm
      refine ih _ ?_
      cases op with
      | join ws room username => exact connInv_connect m ws room username hm
      | leave ws => exact connInv_disconnect m ws hm

/-- C5: for every sequence of join and leave operations, a room is present in
the connection registry iff its member count is non-zero, and the activity
registry holds an entry (the room's ActivityManager, created with the default
chat activity on the first join) for exactly the rooms present in the
connection registry -- created by the first join and destroyed atomically
with the last leave. -/
theorem room_exists_iff_members (ops : List ConnOp) (room : String) :
    ((lookupAssoc (runConnOps ops).rooms room).isSome ↔ memberCount (runConnOps ops) room ≠ 0)
    ∧ ((lookupAssoc (runConnOps ops).registry.rooms room).isSome
        ↔ (lookupAssoc (runConnOps ops).rooms room).isSome) := by
  obtain ⟨h1, h2, h3⟩ := connInv_run ops
  constructor
  · constructor
    · intro hs
      rcases hlook : lookupAssoc (runConnOps ops).rooms room with _ | v
      · rw [hlook] at hs
        simp at hs
      · have hne := h1 (room, v) (mem_of_lookupAssoc_some _ _ _ hlook)
        unfold memberCount
        rw [hlook]
        simpa using hne
    · intro hc
      rcases hlook : lookupAssoc (runConnOps ops).rooms room with _ | v
      · exfalso
        apply hc
        unfold memberCount
        rw [hlook]
        rfl
      · rfl
  · constructor
    · intro hs
      rcases hlook : lookupAssoc (runConnOps ops).registry.rooms room with _ | act
      · rw [hlook] at hs
        simp at hs
      · exact h3 (room, act) (mem_of_lookupAssoc_some _ _ _ hlook)
    · intro hs
      rcases hlook : lookupAssoc (runConnOps ops).rooms room with _ | v
      · rw [hlook] at hs
        simp at hs
      · exact h2 (room, v) (mem_of_lookupAssoc_some _ _ _ hlook)


end Room
